import Mathlib

/-!
Verification of the MaiBot-SNS collection plugin (`plugin.py`) against its
natural-language specification.

The development shallowly embeds the plugin's data model and operations:

* Python/JSON values are modelled by the inductive `SNS.Json`; `json.loads`
  failure is modelled by `Option Json` (`none` = undecodable payload).
* Python strings are manipulated through `List Char` based helpers with
  Python semantics (`strip`, `lower`, substring membership, `replace`).
* CPython `float()` is modelled by `SNS.PyFloat`: an exact sign/decimal-digits
  representation plus the `inf`/`nan` literals.  Arithmetic on finite values
  is exact rational arithmetic; this agrees with IEEE doubles on all inputs
  considered in the theorems below (values and products exactly
  representable), though not on every conceivable decimal string.
* External effects (MCP tool calls, the LLM, the database) are oracles passed
  as explicit parameters; the surrounding control flow is translated from the
  source.
-/

namespace SNS

/-- Python list-of-chars prefix test (used to build substring membership). -/
def listStartsWith : List Char → List Char → Bool
  | [], _ => true
  | _ :: _, [] => false
  | a :: as, b :: bs => a == b && listStartsWith as bs

/-- Python substring membership `pat in text` (true for the empty pattern). -/
def strIn (pat text : String) : Bool :=
  let p := pat.toList
  let t := text.toList
  (List.range (t.length + 1)).any fun i => listStartsWith p (t.drop i)

/-- Python `str.replace(c, "")` for a single-character pattern. -/
def removeChar (c : Char) (s : List Char) : List Char :=
  s.filter (fun x => x ≠ c)

/-- Python `str.strip()` (whitespace trimmed from both ends). -/
def pyStripChars (s : List Char) : List Char :=
  ((s.dropWhile Char.isWhitespace).reverse.dropWhile Char.isWhitespace).reverse

/-- Python `str.lower()` (ASCII case folding suffices for the inputs used). -/
def pyLowerChars (s : List Char) : List Char :=
  s.map Char.toLower

/-- Python slice `s[:n]` (by code point, as in CPython). -/
def pyTake (n : Nat) (s : String) : String :=
  ⟨s.toList.take n⟩

/-- Decimal digits of a natural number, most significant first. -/
def natDigits (n : Nat) : List Char :=
  if h : n < 10 then [Char.ofNat (48 + n)]
  else natDigits (n / 10) ++ [Char.ofNat (48 + n % 10)]
decreasing_by
  exact Nat.div_lt_self (Nat.pos_of_ne_zero (by omega)) (by omega)

/-- Python `str(int)`. -/
def intReprPy (n : Int) : String :=
  if n < 0 then ⟨'-' :: natDigits n.natAbs⟩ else ⟨natDigits n.natAbs⟩

/-- JSON values as decoded by `json.loads` (a JSON `null` is Python `None`).
JSON numbers are modelled as integers, which covers every payload used in
this development. -/
inductive Json where
  | null
  | bool (b : Bool)
  | num (n : Int)
  | str (s : String)
  | arr (xs : List Json)
  | obj (kvs : List (String × Json))

/-- Python truthiness of a decoded JSON value. -/
def pyTruthy : Json → Bool
  | .null => false
  | .bool b => b
  | .num n => n ≠ 0
  | .str s => s ≠ ""
  | .arr xs => !xs.isEmpty
  | .obj kvs => !kvs.isEmpty

mutual

/-- Python `str()` of a decoded JSON value.  Container rendering is a
simplified `repr` (element quoting omitted); like CPython's, it is never the
empty string for a container. -/
def pyStr : Json → String
  | .null => "None"
  | .bool true => "True"
  | .bool false => "False"
  | .num n => intReprPy n
  | .str s => s
  | .arr xs => "[" ++ pyStrList xs ++ "]"
  | .obj kvs => "\x7b" ++ pyStrObj kvs ++ "\x7d"

/-- Comma-separated rendering of a JSON array body. -/
def pyStrList : List Json → String
  | [] => ""
  | [x] => pyStr x
  | x :: xs => pyStr x ++ ", " ++ pyStrList xs

/-- Comma-separated rendering of a JSON object body. -/
def pyStrObj : List (String × Json) → String
  | [] => ""
  | [(k, v)] => k ++ ": " ++ pyStr v
  | (k, v) :: xs => k ++ ": " ++ pyStr v ++ ", " ++ pyStrObj xs

end

/-- Raw key lookup in a JSON object: Python `key in d` / `d[key]`.  Python
dict keys are unique, so first-match lookup is faithful. -/
def jsonGet (kvs : List (String × Json)) (k : String) : Option Json :=
  (kvs.find? (fun kv => kv.1 == k)).map (fun kv => kv.2)

/-- A CPython `float`, modelled exactly: `fin neg num scale` denotes
`(-1)^neg * num / 10^scale`; `inf`/`nan` are the special literals.
Finite values are kept as exact decimals rather than IEEE doubles. -/
inductive PyFloat where
  | fin (neg : Bool) (num : Nat) (scale : Nat)
  | inf (neg : Bool)
  | nan
deriving DecidableEq, Repr

/-- Numeric value of a list of decimal digit characters. -/
def digitsToNat (ds : List Char) : Nat :=
  ds.foldl (fun a c => a * 10 + (c.toNat - 48)) 0

/-- Python `float(s)` on an already-stripped string: optional sign, then
`inf`/`infinity`/`nan` (case-insensitive) or a decimal numeral with an
optional fractional part.  `none` models a `ValueError`.  (Exponents and
underscore separators, which CPython also accepts, are not modelled; no
input considered in the theorems uses them.) -/
def pyFloatOfChars (cs : List Char) : Option PyFloat :=
  let signed : Bool × List Char :=
    match cs with
    | '+' :: r => (false, r)
    | '-' :: r => (true, r)
    | r => (false, r)
  let neg := signed.1
  let rest := signed.2
  let low := pyLowerChars rest
  if low = "inf".toList ∨ low = "infinity".toList then some (.inf neg)
  else if low = "nan".toList then some .nan
  else
    match rest.splitOn '.' with
    | [ds] =>
        if ds ≠ [] ∧ ds.all Char.isDigit then some (.fin neg (digitsToNat ds) 0) else none
    | [a, b] =>
        if (a ++ b) ≠ [] ∧ a.all Char.isDigit ∧ b.all Char.isDigit then
          some (.fin neg (digitsToNat (a ++ b)) b.length)
        else none
    | _ => none

/-- Python `int(f * mult)` for a parsed float `f`, with the exception
behaviour of `PlatformAdapter._parse_count`'s `except` clause folded in:
a `ValueError` (unparseable string, or `int(nan)`) is caught and yields `0`,
while `int(inf)` raises an `OverflowError` that the clause does *not* catch
(`.error ()`).  Truncation is toward zero, as in CPython. -/
def intOfPyFloat (mult : Nat) : Option PyFloat → Except Unit Int
  | none => .ok 0
  | some (.fin neg num scale) =>
      let v : Nat := num * mult / 10 ^ scale
      .ok (if neg then -(v : Int) else (v : Int))
  | some .nan => .ok 0
  | some (.inf _) => .error ()

/-- `PlatformAdapter._parse_count` (plugin.py:298-308): strip commas and
whitespace; a `万` suffix multiplies by 10000, a `k`/`K` suffix by 1000;
otherwise plain float conversion.  `.error ()` models the uncaught
`OverflowError` on infinite values. -/
def parseCount (s : String) : Except Unit Int :=
  let t := pyStripChars (removeChar ',' s.toList)
  if t.contains '万' then intOfPyFloat 10000 (pyFloatOfChars (removeChar '万' t))
  else if (pyLowerChars t).contains 'k' then
    intOfPyFloat 1000 (pyFloatOfChars (removeChar 'k' (pyLowerChars t)))
  else intOfPyFloat 1 (pyFloatOfChars t)

/-- The float value `_parse_count` feeds to `int(...)` on input `s`
(specification helper used to characterise when `parseCount` raises). -/
def countFloatPart (s : String) : Option PyFloat :=
  let t := pyStripChars (removeChar ',' s.toList)
  if t.contains '万' then pyFloatOfChars (removeChar '万' t)
  else if (pyLowerChars t).contains 'k' then pyFloatOfChars (removeChar 'k' (pyLowerChars t))
  else pyFloatOfChars t

/-- Split a field path on dots: Python `path.split(".")` (never empty). -/
def splitPath (p : String) : List String :=
  (p.toList.splitOn '.').map (fun cs => ⟨cs⟩)

/-- `PlatformAdapter._get_nested_value` (plugin.py:204-213).  A JSON `null`
is Python `None`, which the loop's `isinstance(value, dict)` test rejects and
the final `return value` reports as a miss, so `null` collapses to `none`. -/
def getNested : Json → List String → Option Json
  | .null, _ => none
  | v, [] => some v
  | .obj kvs, k :: rest =>
      match jsonGet kvs k with
      | some v => getNested v rest
      | none => none
  | _, _ :: _ => none

/-- `PlatformAdapter._extract_field` (plugin.py:215-222): first candidate
path with a non-`None` value wins. -/
def extractField (item : Json) : List String → Option Json
  | [] => none
  | p :: rest =>
      match getNested item (splitPath p) with
      | some v => some v
      | none => extractField item rest

/-- Generic-adapter field mapping for `feed_id` (plugin.py:183-192). -/
def fmFeedId : List String := ["id", "note_id", "feed_id", "item_id"]

/-- Generic-adapter field mapping for `title`. -/
def fmTitle : List String := ["title", "displayTitle", "name", "headline"]

/-- Generic-adapter field mapping for `content`. -/
def fmContent : List String := ["content", "desc", "description", "text", "body"]

/-- Generic-adapter field mapping for `author`. -/
def fmAuthor : List String := ["author", "nickname", "user.nickname", "user.name", "creator"]

/-- Generic-adapter field mapping for `like_count`. -/
def fmLike : List String := ["likedCount", "like_count", "likes", "interactInfo.likedCount"]

/-- Generic-adapter field mapping for `comment_count`. -/
def fmComment : List String := ["commentCount", "comment_count", "comments", "interactInfo.commentCount"]

/-- Generic-adapter field mapping for `images`. -/
def fmImages : List String := ["images", "imageList", "image_list", "cover", "pics"]

/-- Generic-adapter field mapping for `url`. -/
def fmUrl : List String := ["url", "link", "webUrl", "share_url"]

/-- The `SNSContent` dataclass (plugin.py:134-146).  `image_urls` holds raw
JSON values because `_extract_images` appends the looked-up value without
coercion; `extra` is the raw item object. -/
structure SNSContent where
  feed_id : String
  platform : String
  title : String
  content : String
  author : String
  like_count : Int := 0
  comment_count : Int := 0
  image_urls : List Json := []
  url : String := ""
  extra : List (String × Json) := []

/-- First key of `keys` whose value in `kvs` is truthy (the
`if img.get(key): ... break` pattern of `_extract_images`). -/
def firstTruthyKey (kvs : List (String × Json)) : List String → Option Json
  | [] => none
  | k :: rest =>
      match jsonGet kvs k with
      | some v => if pyTruthy v then some v else firstTruthyKey kvs rest
      | none => firstTruthyKey kvs rest

/-- `PlatformAdapter._extract_images` (plugin.py:310-332). -/
def extractImages : Json → List Json
  | .str s => [.str s]
  | .arr l =>
      l.foldr
        (fun img acc =>
          match img with
          | .str s => .str s :: acc
          | .obj kvs =>
              match firstTruthyKey kvs ["urlDefault", "url", "src", "originUrl", "url_default"] with
              | some u => u :: acc
              | none => acc
          | _ => acc)
        []
  | .obj kvs =>
      match firstTruthyKey kvs ["urlDefault", "url", "src"] with
      | some u => [u]
      | none => []
  | _ => []

/-- Python `str(x or "")` applied to an extracted field: a missing or falsy
value yields the empty string, otherwise `str()` of the value. -/
def strOrEmpty : Option Json → String
  | none => ""
  | some v => if pyTruthy v then pyStr v else ""

/-- The `like_count = extract or 0; if str: _parse_count; ...; int(...)`
pattern of `_parse_item` (plugin.py:269-277, 291-292).  A truthy container
makes `int()` raise a `TypeError` (`.error ()`), which aborts the whole
parse loop in `parse_list_result`. -/
def countOf : Option Json → Except Unit Int
  | none => .ok 0
  | some v =>
      if pyTruthy v then
        match v with
        | .str s => parseCount s
        | .num n => .ok n
        | .bool _ => .ok 1
        | .null => .ok 0
        | .arr _ => .error ()
        | .obj _ => .error ()
      else .ok 0

/-- `PlatformAdapter._parse_item` (plugin.py:263-296) for the generic
adapter.  `.ok none` is the `return None` on an empty id; `.error ()` is an
exception escaping to `parse_list_result`'s handler. -/
def parseItem (item : Json) : Except Unit (Option SNSContent) := do
  let fid := strOrEmpty (extractField item fmFeedId)
  if fid = "" then
    .ok none
  else
    let like ← countOf (extractField item fmLike)
    let comment ← countOf (extractField item fmComment)
    let images :=
      match extractField item fmImages with
      | some v => if pyTruthy v then extractImages v else []
      | none => []
    .ok (some
      { feed_id := fid
        platform := "generic"
        title := strOrEmpty (extractField item fmTitle)
        content := strOrEmpty (extractField item fmContent)
        author := strOrEmpty (extractField item fmAuthor)
        like_count := like
        comment_count := comment
        image_urls := images
        url := strOrEmpty (extractField item fmUrl)
        extra := match item with | .obj kvs => kvs | _ => [] })

/-- The item loop of `parse_list_result` (plugin.py:248-254): non-dict items
are skipped, items without a non-empty id are dropped, and an exception
aborts the loop, returning the contents accumulated so far (the outer
`except Exception` handler at plugin.py:258). -/
def processItems : List Json → List SNSContent
  | [] => []
  | j :: rest =>
      match j with
      | .obj kvs =>
          match parseItem (.obj kvs) with
          | .error _ => []
          | .ok none => processItems rest
          | .ok (some c) =>
              if c.feed_id ≠ "" then c :: processItems rest else processItems rest
      | _ => processItems rest

/-- Helper for `containerList`: walk the candidate keys in order. -/
def containerListGo (kvs : List (String × Json)) : List String → Option (List Json)
  | [] => none
  | k :: rest =>
      match jsonGet kvs k with
      | some (.arr l) => some l
      | _ => containerListGo kvs rest

/-- The list-container probe of `parse_list_result` (plugin.py:239-243):
first of the known keys whose value is a JSON array. -/
def containerList (kvs : List (String × Json)) : Option (List Json) :=
  containerListGo kvs ["items", "feeds", "notes", "data", "list", "results"]

/-- `PlatformAdapter.parse_list_result` (plugin.py:224-261).  The argument is
the decoded payload: `none` models an empty or non-JSON payload (the
`json.JSONDecodeError` branch), which yields the empty list rather than an
error.  The function is total, so it never raises. -/
def parseListResult : Option Json → List SNSContent
  | none => []
  | some data =>
      match data with
      | .arr items => processItems items
      | .obj kvs =>
          match containerList kvs with
          | some items => processItems items
          | none => processItems [.obj kvs]
      | _ => []

/-- First of `keys` present in the object, with its raw value — the
`for key in ...: if key in data: detail = data[key]; break` loop of
`parse_detail_result` (plugin.py:342-347). -/
def firstPresentKey (kvs : List (String × Json)) : List String → Option Json
  | [] => none
  | k :: rest =>
      match jsonGet kvs k with
      | some v => some v
      | none => firstPresentKey kvs rest

/-- Python `old.update(new)` on dicts: existing keys are overwritten in
place, new keys appended (dict keys are unique in Python). -/
def dictUpdate (old new : List (String × Json)) : List (String × Json) :=
  (old.map fun kv =>
    match jsonGet new kv.1 with
    | some v => (kv.1, v)
    | none => kv)
  ++ new.filter (fun kv => (jsonGet old kv.1).isNone)

/-- The `detail` value chosen by `parse_detail_result` (plugin.py:340-349):
the first present container key's value, unwrapped through a nested `note`
key when it is a dict containing one, falling back to the whole payload
when absent or falsy. -/
def detailOf (kvs : List (String × Json)) : Json :=
  match firstPresentKey kvs ["data", "note", "detail", "item"] with
  | some v =>
      let v2 : Json :=
        match v with
        | .obj dk =>
            match jsonGet dk "note" with
            | some nv => nv
            | none => .obj dk
        | _ => v
      if pyTruthy v2 then v2 else .obj kvs
  | none => .obj kvs

/-- The body update of `parse_detail_result` (plugin.py:352-355): replace
`content` only when the extracted value is truthy. -/
def applyContentUpdate (d : Json) (c : SNSContent) : SNSContent :=
  match extractField d fmContent with
  | some v => if pyTruthy v then { c with content := pyStr v } else c
  | none => c

/-- The image update of `parse_detail_result` (plugin.py:357-360): replace
`image_urls` only when the extracted value is truthy (the extracted URL
list may nevertheless be empty). -/
def applyImagesUpdate (d : Json) (c : SNSContent) : SNSContent :=
  match extractField d fmImages with
  | some v => if pyTruthy v then { c with image_urls := extractImages v } else c
  | none => c

/-- `PlatformAdapter.parse_detail_result` (plugin.py:334-368).  `none` as
payload models a `json.loads` failure: the enclosing `try` returns the
content unchanged.  When the chosen `detail` is a truthy non-dict, the field
extractions all miss (no mutation) and `content.extra.update(detail)` raises,
so the handler again returns the content unchanged; when it is a dict, body
and images are updated and `extra` is merged with the detail dict
(plugin.py:363). -/
def parseDetailResult (payload : Option Json) (c : SNSContent) : SNSContent :=
  match payload with
  | none => c
  | some data =>
      match data with
      | .obj kvs =>
          let d1 := detailOf kvs
          if pyTruthy d1 then
            match d1 with
            | .obj dk =>
                let c2 := applyImagesUpdate d1 (applyContentUpdate d1 c)
                { c2 with extra := dictUpdate c2.extra dk }
            | _ => c
          else c
      | _ => c

/-- `SNSCollector._fetch_details` (plugin.py:830-886).  The per-item oracle
`results` gives each detail call's outcome: `none` = the call raised (the
inner `except` keeps the item unchanged), `some payload` = the decoded
response handed to `parseDetailResult`.  `asyncio.gather` returns results in
task order, so the stage is a map over the enumerated input; the semaphore
bounding in-flight calls to 3 does not affect the returned value and is not
modelled.  When the detail tool does not exist the input list is returned. -/
def fetchDetails (toolExists : Bool) (results : Nat → Option (Option Json))
    (contents : List SNSContent) : List SNSContent :=
  if !toolExists then contents
  else
    contents.enum.map fun p =>
      match results p.1 with
      | none => p.2
      | some payload => parseDetailResult payload p.2

/-- The filter text `f"{c.title} {c.content}"` (plugin.py:899). -/
def filterText (c : SNSContent) : String :=
  c.title ++ " " ++ c.content

/-- Per-item decision of `_filter_contents` (plugin.py:898-925): whitelist
hit keeps unconditionally; otherwise drop below the like floor; otherwise
drop on a blacklist hit; otherwise keep. -/
def keepContent (minLikes : Int) (blacklist whitelist : List String) (c : SNSContent) : Bool :=
  let text := filterText c
  if !whitelist.isEmpty && whitelist.any (fun kw => strIn kw text) then true
  else if c.like_count < minLikes then false
  else if blacklist.any (fun kw => strIn kw text) then false
  else true

/-- `SNSCollector._filter_contents` (plugin.py:888-927): the accumulation
loop over the input list. -/
def filterContents (minLikes : Int) (blacklist whitelist : List String) :
    List SNSContent → List SNSContent
  | [] => []
  | c :: rest =>
      if keepContent minLikes blacklist whitelist c then
        c :: filterContents minLikes blacklist whitelist rest
      else filterContents minLikes blacklist whitelist rest

/-- The `data` dict built by `_write_to_memory` (plugin.py:1045-1055).
`participants` and `keywords` stand for the JSON-encoded lists of the
source; `key_point` for the JSON-encoded tag list. -/
structure MemoryRecord where
  chat_id : String
  start_time : Int
  end_time : Int
  original_text : String
  participants : List String
  theme : String
  keywords : List String
  summary : String
  key_point : List String
deriving DecidableEq, Repr

/-- One entry of the failed-write buffer file `failed_writes.json`:
`{"data": ..., "time": ...}` (plugin.py:1144). -/
structure FailedWrite where
  data : MemoryRecord
  time : Int
deriving DecidableEq, Repr

/-- One entry of the `recent_memories` ring buffer (plugin.py:717-721). -/
structure RecentMemory where
  title : String
  author : String
  time : Int
deriving DecidableEq, Repr

/-- One entry of `result.preview_contents` (plugin.py:701-708). -/
structure PreviewEntry where
  feed_id : String
  title : String
  content : String
  author : String
  like_count : Int
  image_count : Nat
deriving DecidableEq, Repr

/-- The `CollectResult` dataclass (plugin.py:149-159). -/
structure CollectResult where
  success : Bool := false
  fetched : Nat := 0
  written : Nat := 0
  filtered : Nat := 0
  duplicate : Nat := 0
  errors : List String := []
  previewContents : List PreviewEntry := []
  previewItems : List SNSContent := []

/-- Process-wide mutable state touched by a collection run: the
`is_running` flag and totals of `_collector_stats`, the `_feed_id_cache`
set with its `_feed_id_cache_loaded` latch, the persistent store
(`ChatHistory` rows created by this plugin), the failed-write buffer file
and the `recent_memories` ring buffer. -/
structure CollectorState where
  isRunning : Bool := false
  cacheLoaded : Bool := false
  cache : List String := []
  store : List MemoryRecord := []
  buffer : List FailedWrite := []
  recent : List RecentMemory := []
  lastCollectTime : Int := 0
  totalCollected : Nat := 0
  totalWritten : Nat := 0
  totalFiltered : Nat := 0
  totalDuplicate : Nat := 0

/-- Per-item outcome of the externally-dependent parts of a commit:
the LLM-produced summary/keywords, the optional image description (empty
unless image recognition is enabled and produced text), and whether the
database `create` succeeds (`errMsg` is the exception text otherwise). -/
structure ItemEffect where
  summary : String := ""
  keywords : List String := []
  imageDesc : String := ""
  writeOk : Bool := true
  errMsg : String := ""

/-- External-effect oracle for one `collect()` run: the keys hydrated into
the dedup cache on first use (plugin.py:490-527), the fetch-stage output
(post-truncation, plugin.py:617), the net drop count of the filter and
interest-match stages, the list entering the commit loop after detail
enrichment, the per-item commit effects, the retention manager's effect on
the store (plugin.py:1241-1303), and the wall clock. -/
structure CollectOracle where
  hydrationKeys : List String := []
  fetched : List SNSContent := []
  filteredCount : Nat := 0
  finalItems : List SNSContent := []
  effs : Nat → ItemEffect := fun _ => {}
  cleanup : List MemoryRecord → List MemoryRecord := id
  now : Int := 0

/-- `SNSCollector._make_cache_key` (plugin.py:454-456). -/
def cacheKey (platform feedId : String) : String :=
  platform ++ ":" ++ feedId

/-- Python `set.add`. -/
def addKey (cache : List String) (k : String) : List String :=
  if cache.contains k then cache else cache ++ [k]

/-- Add several keys in order. -/
def addKeys (cache : List String) (ks : List String) : List String :=
  ks.foldl addKey cache

/-- `SNSCollector._check_duplicate_cached` (plugin.py:766-770): an item with
an empty `feed_id` is never reported as a duplicate; otherwise membership of
`content.platform + ":" + feed_id` in the cache decides. -/
def checkDuplicateCached (cache : List String) (c : SNSContent) : Bool :=
  if c.feed_id = "" then false
  else cache.contains (cacheKey c.platform c.feed_id)

/-- Adapter `get_content_url` dispatch (plugin.py:370-374, 410-411):
the xiaohongshu adapter builds an explore URL, the generic adapter returns
the item's own `url` (empty when absent). -/
def contentUrl (platform : String) (c : SNSContent) : String :=
  if platform = "xiaohongshu" then "https://xiaohongshu.com/explore/" ++ c.feed_id
  else c.url

/-- Keep the last `n` elements — Python `l[-n:]`. -/
def lastN (n : Nat) (l : List α) : List α :=
  l.drop (l.length - n)

/-- The record built by `_write_to_memory` (plugin.py:1033-1055). -/
def mkData (platform : String) (c : SNSContent) (now : Int) (eff : ItemEffect) : MemoryRecord :=
  { chat_id := "sns_" ++ platform
    start_time := now
    end_time := now
    original_text := pyTake 500 c.content
    participants := [c.author]
    theme := if c.title ≠ "" then c.title else pyTake 50 eff.summary
    keywords := eff.keywords
    summary :=
      "[来自" ++ platform ++ "] " ++ eff.summary
        ++ (if eff.imageDesc ≠ "" then "\n[图片内容] " ++ eff.imageDesc else "")
        ++ "\n作者: @" ++ c.author ++ "\n原文: " ++ contentUrl platform c
    key_point := ["feed_id:" ++ c.feed_id, "likes:" ++ intReprPy c.like_count] }

/-- The preview projection captured per accepted item (plugin.py:701-708). -/
def mkPreviewEntry (c : SNSContent) : PreviewEntry :=
  { feed_id := c.feed_id
    title := c.title
    content := pyTake 200 c.content
    author := c.author
    like_count := c.like_count
    image_count := c.image_urls.length }

/-- One iteration of the commit loop of `collect()` (plugin.py:689-730):
duplicate check, then preview capture or database write; a failed write
appends to the failed-write buffer (plugin.py:1060-1063, 1137-1147) and
records an error.  On success the dedup cache gains the key built from the
`platform` argument and the ring buffer keeps its last 20 entries. -/
def processItem (preview : Bool) (platform : String) (now : Int) (eff : ItemEffect)
    (p : CollectorState × CollectResult) (c : SNSContent) : CollectorState × CollectResult :=
  let st := p.1
  let res := p.2
  if checkDuplicateCached st.cache c then
    (st, { res with duplicate := res.duplicate + 1 })
  else if preview then
    (st,
      { res with
        previewContents := res.previewContents ++ [mkPreviewEntry c]
        previewItems := res.previewItems ++ [c]
        written := res.written + 1 })
  else if eff.writeOk then
    ({ st with
        store := st.store ++ [mkData platform c now eff]
        cache := addKey st.cache (cacheKey platform c.feed_id)
        recent := lastN 20 (st.recent ++ [{ title := pyTake 50 c.title, author := c.author, time := now }]) },
      { res with written := res.written + 1 })
  else
    ({ st with buffer := st.buffer ++ [{ data := mkData platform c now eff, time := now }] },
      { res with errors := res.errors ++ ["写入失败: " ++ eff.errMsg] })

/-- The commit loop of `collect()` over the accepted items, with the running
index selecting each item's effect from the oracle. -/
def commitLoop (preview : Bool) (platform : String) (now : Int) (effs : Nat → ItemEffect) :
    Nat → List SNSContent → CollectorState × CollectResult → CollectorState × CollectResult
  | _, [], p => p
  | i, c :: rest, p =>
      commitLoop preview platform now effs (i + 1) rest
        (processItem preview platform now (effs i) p c)

/-- Lazy hydration of the dedup cache (`_async_load_feed_id_cache`,
plugin.py:490-527): performed at most once per process, adding the keys
extracted from the store for the enabled platforms (oracled, since they
derive from database contents). -/
def hydrate (ora : CollectOracle) (s : CollectorState) : CollectorState :=
  if s.cacheLoaded then s
  else { s with cache := addKeys s.cache ora.hydrationKeys, cacheLoaded := true }

/-- End of a run that reached the commit loop (plugin.py:689-756): run the
loop, mark success, optionally run the retention cleanup
(`if not preview_only and (auto_days > 0 or max_records > 0)`,
plugin.py:735-742), update the run statistics, and release the flag in the
`finally` block. -/
def finishRun (preview autoCleanup : Bool) (platform : String) (ora : CollectOracle)
    (s1 : CollectorState) (res0 : CollectResult) (items : List SNSContent) :
    CollectResult × CollectorState :=
  let p := commitLoop preview platform ora.now ora.effs 0 items (s1, res0)
  let res := { p.2 with success := true }
  let s2 := p.1
  let s3 := if !preview && autoCleanup then { s2 with store := ora.cleanup s2.store } else s2
  let s4 :=
    { s3 with
      lastCollectTime := ora.now
      totalCollected := s3.totalCollected + res.fetched
      totalWritten := s3.totalWritten + res.written
      totalFiltered := s3.totalFiltered + res.filtered
      totalDuplicate := s3.totalDuplicate + res.duplicate }
  (res, { s4 with isRunning := false })

/-- The guarded body of `collect()` after the early checks (plugin.py:609-763).
`items?` is `some items` in provided-contents mode (stages 1-4 are skipped,
plugin.py:675-676) and `none` in fetch mode, where the stage pipeline comes
from the oracle: an empty fetch result or an empty post-match list returns
early with `success=True` and no statistics update (plugin.py:626-630,
662-666).  `exc` models a whole-run exception, caught at plugin.py:758-760;
the `finally` clause (plugin.py:761-762) clears the flag on every path. -/
def collectRun (preview autoCleanup : Bool) (platform : String) (ora : CollectOracle)
    (exc : Option String) (fetched0 : Nat) (items? : Option (List SNSContent))
    (s0 : CollectorState) : CollectResult × CollectorState :=
  let sR := { s0 with isRunning := true }
  match exc with
  | some m => ({ fetched := fetched0, errors := [m] }, { sR with isRunning := false })
  | none =>
      let s1 := hydrate ora sR
      match items? with
      | some items => finishRun preview autoCleanup platform ora s1 { fetched := fetched0 } items
      | none =>
          if ora.fetched.isEmpty then
            ({ success := true }, { s1 with isRunning := false })
          else if ora.finalItems.isEmpty then
            ({ success := true, fetched := ora.fetched.length, filtered := ora.filteredCount },
              { s1 with isRunning := false })
          else
            finishRun preview autoCleanup platform ora s1
              { fetched := ora.fetched.length, filtered := ora.filteredCount }
              ora.finalItems

/-- The platform-enabled and already-running checks of `collect()`
(plugin.py:588-598), shared by both input modes; `fetched0` is the
`result.fetched` value already set in provided-contents mode. -/
def collectChecks (platformEnabled preview autoCleanup : Bool) (platform : String)
    (ora : CollectOracle) (exc : Option String) (fetched0 : Nat)
    (items? : Option (List SNSContent)) (s : CollectorState) :
    CollectResult × CollectorState :=
  if !platformEnabled then
    ({ fetched := fetched0, errors := ["平台未启用: " ++ platform] }, s)
  else if s.isRunning then
    ({ fetched := fetched0, errors := ["采集任务正在运行中"] }, s)
  else collectRun preview autoCleanup platform ora exc fetched0 items? s

/-- `SNSCollector.collect` (plugin.py:550-764).  Parameters:
`platformEnabled` is the computed platform check
(`platform_config and not platform_config.get("enabled", True)` negated);
`provided` models `provided_contents`, each element `none` standing for a
value that is not an `SNSContent` instance (filtered out at plugin.py:577);
`count` is the requested amount in fetch mode; `autoCleanup` is
`auto_cleanup_days > 0 or max_records > 0`.  The check order is that of the
source: provided/count validation, platform-enabled, already-running, then
the guarded run. -/
def collect (platformEnabled preview autoCleanup : Bool) (platform : String)
    (provided : Option (List (Option SNSContent))) (count : Int)
    (ora : CollectOracle) (exc : Option String) (s : CollectorState) :
    CollectResult × CollectorState :=
  match provided with
  | some l =>
      let items := l.filterMap id
      if items.isEmpty then ({ success := true }, s)
      else collectChecks platformEnabled preview autoCleanup platform ora exc
        items.length (some items) s
  | none =>
      if max count 0 = 0 then ({ errors := ["采集数量必须大于 0"] }, s)
      else collectChecks platformEnabled preview autoCleanup platform ora exc 0 none s

/-- The retry loop of `retry_cached_writes` (plugin.py:1159-1164): `ok i`
tells whether the database `create` for the `i`-th buffered entry succeeds.
Returns the success count, the still-failing entries in order, and the
records created in order. -/
def retryLoop (ok : Nat → Bool) : Nat → List FailedWrite → Nat × List FailedWrite × List MemoryRecord
  | _, [] => (0, [], [])
  | i, e :: rest =>
      let r := retryLoop ok (i + 1) rest
      if ok i then (r.1 + 1, r.2.1, e.data :: r.2.2)
      else (r.1, e :: r.2.1, r.2.2)

/-- `SNSCollector.retry_cached_writes` (plugin.py:1149-1175).  The buffer
file is `none` when absent; a missing file returns 0 with nothing touched.
Still-failing entries are rewritten to the file, or the file is deleted when
none remain; created records are appended to the store.  Result:
`(success count, new buffer file, new store)`. -/
def retryCachedWrites (ok : Nat → Bool) (file : Option (List FailedWrite))
    (store : List MemoryRecord) : Nat × Option (List FailedWrite) × List MemoryRecord :=
  match file with
  | none => (0, none, store)
  | some cache =>
      let r := retryLoop ok 0 cache
      (r.1, if r.2.1.isEmpty then none else some r.2.1, store ++ r.2.2)

/-- One preview session as stored in `collector_state.json` under
`state["preview"][stream_id]` (plugin.py:1553-1557): creation timestamp,
the keyword, and the stored items.  The `asdict`/reconstruction round trip
of the items (plugin.py:1489-1509) is modelled as the identity on the
well-formed entries actually stored. -/
structure PreviewSession where
  ts : Int
  keyword : String
  items : List SNSContent

/-- The on-disk preview map, keyed by stream id. -/
def PreviewState := List (String × PreviewSession)

/-- Lookup of `state.get("preview", {}).get(stream_id)`. -/
def lookupSession (st : PreviewState) (k : String) : Option PreviewSession :=
  ((st : List (String × PreviewSession)).find? (fun p => p.1 == k)).map (fun p => p.2)

/-- `del state["preview"][stream_id]` (plugin.py:1519-1524). -/
def removeSession (st : PreviewState) (k : String) : PreviewState :=
  (st : List (String × PreviewSession)).filter (fun p => !(p.1 == k))

/-- Outcome of the keyword-less `/sns collect` action: either the confirm
path (`collect(provided_contents=items, preview_only=False)`) or the
fall-through fresh `collect()` (plugin.py:1528). -/
inductive ConfirmAction where
  | confirmWrite (items : List SNSContent)
  | freshCollect

/-- The preview-confirm decision of `SNSCommand.execute`'s keyword-less
`collect` action (plugin.py:1483-1528): a session is honoured when the
stream id is non-empty, the stored `ts` is truthy, `now - ts <= 15*60`, and
the reconstructed item list is non-empty; the session entry is deleted only
on that path.  Otherwise the action falls through to a fresh `collect()`
with the state file untouched. -/
def snsCollectConfirm (now : Int) (streamId : String) (st : PreviewState) :
    ConfirmAction × PreviewState :=
  let preview := if streamId ≠ "" then lookupSession st streamId else none
  match preview with
  | some p =>
      if p.ts ≠ 0 ∧ now - p.ts ≤ 15 * 60 then
        if p.items.isEmpty then (.freshCollect, st)
        else (.confirmWrite p.items, removeSession st streamId)
      else (.freshCollect, st)
  | none => (.freshCollect, st)

/-- The dedup cache as it stands when the commit loop of a run starts:
the caller's cache, plus the lazily hydrated keys on the first run. -/
def hydratedCache (ora : CollectOracle) (s : CollectorState) : List String :=
  if s.cacheLoaded then s.cache else addKeys s.cache ora.hydrationKeys

/-- Sample content item used in concrete instantiations. -/
def sampleContent : SNSContent :=
  { feed_id := "f1", platform := "xiaohongshu", title := "t", content := "b", author := "a" }

/-- Sample content item carrying an image list. -/
def sampleImgContent : SNSContent :=
  { feed_id := "f2", platform := "p", title := "", content := "", author := ""
    image_urls := [.str "old"] }

/-- Sample content item with an empty id. -/
def emptyIdContent : SNSContent :=
  { feed_id := "", platform := "xiaohongshu", title := "t", content := "b", author := "a" }

/-- Default (empty) oracle for concrete runs. -/
def oraDefault : CollectOracle := {}

/-- Sample persisted record. -/
def sampleRecord : MemoryRecord :=
  { chat_id := "sns_p", start_time := 0, end_time := 0, original_text := ""
    participants := [], theme := "", keywords := [], summary := "", key_point := [] }

-- ===========================================================================
-- Theorems
-- ===========================================================================

/-- `filterContents` is pointwise filtering by `keepContent`. -/
theorem filterContents_eq_filter (m : Int) (bl wl : List String) (L : List SNSContent) :
    filterContents m bl wl L = L.filter (keepContent m bl wl) := by
  induction L with
  | nil => rfl
  | cons c rest ih => simp [filterContents, List.filter_cons, ih]

/-- C2: an item below the engagement threshold with no whitelist hit is
excluded by the filter stage; an item with a whitelist hit is kept
unconditionally, for every threshold and every blacklist. -/
theorem filter_stage_spec (T : Int) (wl bl : List String) (L : List SNSContent) (c : SNSContent) :
    ((∀ kw ∈ wl, strIn kw (filterText c) = false) → c.like_count < T →
      c ∉ filterContents T bl wl L) ∧
    ((∃ kw ∈ wl, strIn kw (filterText c) = true) → c ∈ L →
      c ∈ filterContents T bl wl L) := by
  constructor
  · intro hwl hlike hmem
    rw [filterContents_eq_filter] at hmem
    have hkeep := (List.mem_filter.mp hmem).2
    have hany : wl.any (fun kw => strIn kw (filterText c)) = false := by
      simp only [List.any_eq_false]
      intro kw hkw
      simp [hwl kw hkw]
    simp [keepContent, hany, hlike] at hkeep
  · rintro ⟨kw, hkw, hs⟩ hmem
    rw [filterContents_eq_filter]
    refine List.mem_filter.mpr ⟨hmem, ?_⟩
    have hany : wl.any (fun kw => strIn kw (filterText c)) = true :=
      List.any_eq_true.mpr ⟨kw, hkw, hs⟩
    have hne : wl.isEmpty = false := by
      cases wl with
      | nil => cases hkw
      | cons a l => rfl
    simp [keepContent, hany, hne]

/-- Witness for C2 at a concrete input: a low-engagement item without
whitelist hit is dropped, and a whitelisted low-engagement item survives a
matching blacklist. -/
theorem filter_stage_spec_witness :
    sampleContent ∉ filterContents 100 [] [] [sampleContent] ∧
    sampleContent ∈ filterContents 100 ["t"] ["t"] [sampleContent] := by
  constructor
  · exact (filter_stage_spec 100 [] [] [sampleContent] sampleContent).1
      (by intro kw hkw; cases hkw) (by decide)
  · exact (filter_stage_spec 100 ["t"] ["t"] [sampleContent] sampleContent).2
      ⟨"t", by decide, by decide⟩ (List.mem_singleton_self _)

/-- C10: a `provided_contents` call with no valid item returns
`success=True` with all counts zero and no errors, leaving the whole
process state untouched — for every value of the platform-enabled check and
of the running flag, which shows the return happens before both checks. -/
theorem provided_empty_noop (pe pv ac : Bool) (pf : String)
    (L : List (Option SNSContent)) (cnt : Int) (ora : CollectOracle)
    (exc : Option String) (s : CollectorState) (h : L.filterMap id = []) :
    collect pe pv ac pf (some L) cnt ora exc s = ({ success := true }, s) := by
  simp [collect, h]

/-- Witness for C10: a list holding one non-`SNSContent` value, on a busy,
platform-disabled state. -/
theorem provided_empty_noop_witness :
    collect false false false "xiaohongshu" (some [none]) 0 oraDefault none
      { isRunning := true } = ({ success := true }, { isRunning := true }) :=
  provided_empty_noop false false false "xiaohongshu" [none] 0 oraDefault none
    { isRunning := true } rfl

/-- `intOfPyFloat` raises exactly on an infinite value. -/
theorem intOfPyFloat_error (mult : Nat) (o : Option PyFloat) :
    intOfPyFloat mult o = .error () ↔ ∃ b, o = some (.inf b) := by
  cases o with
  | none => simp [intOfPyFloat]
  | some f => cases f <;> simp [intOfPyFloat]

/-- C7 (amended): the unit suffixes and thousands separators parse as
specified and unparseable values resolve to 0, but the parser's result can
be negative for negative inputs, and it raises (an uncaught `OverflowError`)
exactly when the numeric part parses as an infinity. -/
theorem parse_count_spec :
    parseCount "1.5万" = .ok 15000 ∧
    parseCount "2k" = .ok 2000 ∧
    parseCount "1,234" = .ok 1234 ∧
    parseCount "abc" = .ok 0 ∧
    parseCount "" = .ok 0 ∧
    (∀ s : String, parseCount s = .error () ↔ ∃ b, countFloatPart s = some (.inf b)) := by
  refine ⟨rfl, rfl, rfl, rfl, rfl, ?_⟩
  intro s
  simp only [parseCount, countFloatPart]
  split_ifs <;> exact intOfPyFloat_error _ _

/-- Witness for C7's general clause at the concrete input `"inf"`. -/
theorem parse_count_spec_witness :
    ∃ b, countFloatPart "inf" = some (PyFloat.inf b) :=
  (parse_count_spec.2.2.2.2.2 "inf").mp rfl

/-- Counterexample to C7 as stated: `_parse_count` is not non-negative
(`"-5"` parses to `-5`), and it can raise (`int(float("inf"))` raises an
`OverflowError` that the `except (ValueError, AttributeError)` clause does
not catch). -/
theorem parse_count_counterexample :
    parseCount "-5" = .ok (-5) ∧ parseCount "inf" = .error () :=
  ⟨rfl, rfl⟩

/-- Every content produced by the item loop carries a non-empty id. -/
theorem processItems_feed_id (items : List Json) :
    ∀ c ∈ processItems items, c.feed_id ≠ "" := by
  induction items with
  | nil => intro c hc; cases hc
  | cons j rest ih =>
      intro c hc
      cases j with
      | obj kvs =>
          simp only [processItems] at hc
          cases hpi : parseItem (.obj kvs) with
          | error e => rw [hpi] at hc; cases hc
          | ok o =>
              rw [hpi] at hc
              cases o with
              | none => exact ih c hc
              | some c1 =>
                  by_cases hid : c1.feed_id = ""
                  · simp only [hid, ne_eq, not_true_eq_false, if_false] at hc
                    exact ih c hc
                  · simp only [ne_eq, hid, not_false_eq_true, if_true] at hc
                    rcases List.mem_cons.mp hc with h | h
                    · rw [h]; exact hid
                    · exact ih c h
      | null => exact ih c hc
      | bool b => exact ih c hc
      | num n => exact ih c hc
      | str s => exact ih c hc
      | arr xs => exact ih c hc

/-- C6: `parse_list_result` never raises (it is total); an undecodable
payload yields the empty list; a bare array, an object with a known list
container key, and a single bare object are all accepted; every returned
item has a non-empty id (items lacking one are silently dropped). -/
theorem parse_list_tolerant :
    parseListResult none = [] ∧
    (∀ items, parseListResult (some (.arr items)) = processItems items) ∧
    (∀ kvs items, containerList kvs = some items →
      parseListResult (some (.obj kvs)) = processItems items) ∧
    (∀ kvs, containerList kvs = none →
      parseListResult (some (.obj kvs)) = processItems [.obj kvs]) ∧
    (∀ payload c, c ∈ parseListResult payload → c.feed_id ≠ "") := by
  refine ⟨rfl, fun items => rfl, ?_, ?_, ?_⟩
  · intro kvs items h
    simp [parseListResult, h]
  · intro kvs h
    simp [parseListResult, h]
  · intro payload c hc
    cases payload with
    | none => cases hc
    | some data =>
        cases data with
        | arr items => exact processItems_feed_id items c hc
        | obj kvs =>
            simp only [parseListResult] at hc
            cases h : containerList kvs with
            | some items => rw [h] at hc; exact processItems_feed_id items c hc
            | none => rw [h] at hc; exact processItems_feed_id [.obj kvs] c hc
        | null => cases hc
        | bool b => cases hc
        | num n => cases hc
        | str s => cases hc

/-- Witness for C6 at concrete payloads: an `items`-container object parses
to the item list, and the item parsed from a bare array has a non-empty
id. -/
theorem parse_list_tolerant_witness :
    parseListResult (some (.obj [("items", Json.arr [])])) = [] ∧
    ∀ c ∈ parseListResult (some (.arr [.obj [("id", Json.str "x1")]])), c.feed_id ≠ "" := by
  constructor
  · exact parse_list_tolerant.2.2.1 [("items", Json.arr [])] [] rfl
  · intro c hc
    exact parse_list_tolerant.2.2.2.2 (some (.arr [.obj [("id", Json.str "x1")]])) c hc

/-- Exact description of the retry loop in terms of the enumerated buffer:
success count, still-failing entries and created records. -/
theorem retryLoop_spec (ok : Nat → Bool) (cache : List FailedWrite) :
    ∀ i, retryLoop ok i cache =
      (((cache.enumFrom i).filter (fun p => ok p.1)).length,
       ((cache.enumFrom i).filter (fun p => !ok p.1)).map (fun p => p.2),
       ((cache.enumFrom i).filter (fun p => ok p.1)).map (fun p => p.2.data)) := by
  induction cache with
  | nil => intro i; rfl
  | cons e rest ih =>
      intro i
      simp only [retryLoop, List.enumFrom, ih (i + 1), List.filter_cons]
      by_cases h : ok i <;> simp [h]

/-- Every buffered occurrence ends up either among the created records or
among the still-failing entries. -/
theorem retryLoop_round_trip (ok : Nat → Bool) (cache : List FailedWrite) :
    ∀ i k (h : k < cache.length),
      (cache.get ⟨k, h⟩).data ∈ (retryLoop ok i cache).2.2 ∨
      cache.get ⟨k, h⟩ ∈ (retryLoop ok i cache).2.1 := by
  induction cache with
  | nil => intro i k h; exact absurd h (by simp)
  | cons e rest ih =>
      intro i k h
      cases k with
      | zero =>
          simp only [retryLoop, List.get]
          by_cases hok : ok i <;> simp [hok]
      | succ k =>
          have hk : k < rest.length := by simpa using h
          have := ih (i + 1) k hk
          simp only [retryLoop, List.get]
          by_cases hok : ok i <;> simp only [hok, if_pos, if_neg, Bool.false_eq_true, ite_true, ite_false]
          · rcases this with h1 | h1
            · exact Or.inl (List.mem_cons_of_mem _ h1)
            · exact Or.inr h1
          · rcases this with h1 | h1
            · exact Or.inl h1
            · exact Or.inr (List.mem_cons_of_mem _ h1)

/-- C4: `retry_cached_writes` re-attempts every buffered entry, persists
exactly the now-successful ones, keeps exactly the still-failing entries
(deleting the buffer file when none remain), returns the success count, and
no occurrence is lost: each buffered record is persisted or still buffered.
A missing buffer file is a no-op returning 0. -/
theorem retry_cached_writes_spec :
    (∀ ok store, retryCachedWrites ok none store = (0, none, store)) ∧
    (∀ ok cache store,
      (retryCachedWrites ok (some cache) store).1 =
        ((cache.enum.filter (fun p => ok p.1)).length) ∧
      (retryCachedWrites ok (some cache) store).2.2 =
        store ++ (cache.enum.filter (fun p => ok p.1)).map (fun p => p.2.data) ∧
      (retryCachedWrites ok (some cache) store).2.1 =
        (if ((cache.enum.filter (fun p => !ok p.1)).map (fun p => p.2)).isEmpty then none
         else some ((cache.enum.filter (fun p => !ok p.1)).map (fun p => p.2)))) ∧
    (∀ ok cache store k (h : k < cache.length),
      (cache.get ⟨k, h⟩).data ∈ (retryCachedWrites ok (some cache) store).2.2 ∨
      ∃ es, (retryCachedWrites ok (some cache) store).2.1 = some es ∧
        cache.get ⟨k, h⟩ ∈ es) := by
  refine ⟨fun ok store => rfl, ?_, ?_⟩
  · intro ok cache store
    have h := retryLoop_spec ok cache 0
    simp only [retryCachedWrites, h]
    exact ⟨rfl, rfl, rfl⟩
  · intro ok cache store k h
    rcases retryLoop_round_trip ok cache 0 k h with h1 | h1
    · exact Or.inl (by
        simp only [retryCachedWrites]
        exact List.mem_append_right _ h1)
    · refine Or.inr ⟨(retryLoop ok 0 cache).2.1, ?_, h1⟩
      have hne : (retryLoop ok 0 cache).2.1.isEmpty = false := by
        cases hr : (retryLoop ok 0 cache).2.1 with
        | nil => rw [hr] at h1; cases h1
        | cons a l => rfl
      simp [retryCachedWrites, hne]

/-- Witness for C4 at a concrete buffer: first entry succeeds, second keeps
failing; the file is rewritten with the failing entry and the succeeding
record is persisted. -/
theorem retry_cached_writes_spec_witness :
    (retryCachedWrites (fun i => i == 0) (some [⟨sampleRecord, 1⟩, ⟨sampleRecord, 2⟩]) []).1 = 1 ∧
    ((⟨sampleRecord, 2⟩ : FailedWrite).data ∈
        (retryCachedWrites (fun i => i == 0) (some [⟨sampleRecord, 1⟩, ⟨sampleRecord, 2⟩]) []).2.2 ∨
      ∃ es, (retryCachedWrites (fun i => i == 0) (some [⟨sampleRecord, 1⟩, ⟨sampleRecord, 2⟩]) []).2.1
          = some es ∧ (⟨sampleRecord, 2⟩ : FailedWrite) ∈ es) := by
  refine ⟨?_, ?_⟩
  · rw [(retry_cached_writes_spec.2.1 (fun i => i == 0)
      [⟨sampleRecord, 1⟩, ⟨sampleRecord, 2⟩] []).1]
    rfl
  · exact retry_cached_writes_spec.2.2 (fun i => i == 0)
      [⟨sampleRecord, 1⟩, ⟨sampleRecord, 2⟩] [] 1 (by decide)

/-- Deleting a session key makes later lookups of that key miss. -/
theorem lookupSession_removeSession (st : PreviewState) (k : String) :
    lookupSession (removeSession st k) k = none := by
  induction st with
  | nil => rfl
  | cons p rest ih =>
      by_cases h : p.1 == k
      · simp only [removeSession, List.filter_cons, h, Bool.not_true, cond_false]
        exact ih
      · simp only [removeSession, List.filter_cons, h, Bool.not_false, cond_true,
          lookupSession, List.find?, h]
        exact ih

/-- C8 (amended): a confirm is honoured only for a present session with a
truthy timestamp within the 15-minute window, and on that path the session
is removed from the on-disk state; an expired or absent session makes the
action fall through to a fresh `collect()` — but an expired session is NOT
removed: the state file is left untouched. -/
theorem preview_confirm_spec (now : Int) (sid : String) (st : PreviewState) :
    (∀ items st2, snsCollectConfirm now sid st = (.confirmWrite items, st2) →
      sid ≠ "" ∧ ∃ p, lookupSession st sid = some p ∧ p.ts ≠ 0 ∧
        now - p.ts ≤ 15 * 60 ∧ items = p.items ∧
        st2 = removeSession st sid ∧ lookupSession st2 sid = none) ∧
    (∀ p, lookupSession st sid = some p → ¬(now - p.ts ≤ 15 * 60) →
      snsCollectConfirm now sid st = (.freshCollect, st)) ∧
    (lookupSession st sid = none → snsCollectConfirm now sid st = (.freshCollect, st)) := by
  refine ⟨?_, ?_, ?_⟩
  · intro items st2 h
    by_cases hsid : sid = ""
    · simp [snsCollectConfirm, hsid] at h
    · refine ⟨hsid, ?_⟩
      cases hl : lookupSession st sid with
      | none => simp [snsCollectConfirm, hsid, hl] at h
      | some p =>
          simp only [snsCollectConfirm, hsid, ne_eq, not_false_eq_true, if_true, hl] at h
          split_ifs at h with hcond hemp
          · simp at h
          · have h1 := congrArg Prod.fst h
            have h2 := congrArg Prod.snd h
            simp only at h1 h2
            refine ⟨p, rfl, hcond.1, hcond.2, ?_, h2.symm, ?_⟩
            · exact (ConfirmAction.confirmWrite.injEq _ _).mp h1.symm
            · rw [← h2]; exact lookupSession_removeSession st sid
          · simp at h
  · intro p hl hexp
    by_cases hsid : sid = ""
    · simp [snsCollectConfirm, hsid]
    · simp only [snsCollectConfirm, hsid, ne_eq, not_false_eq_true, if_true, hl]
      split_ifs with hcond hemp
      · rfl
      · exact absurd hcond.2 hexp
      · rfl
  · intro hl
    by_cases hsid : sid = ""
    · simp [snsCollectConfirm, hsid]
    · simp [snsCollectConfirm, hsid, hl]

/-- Witness for C8: a session confirmed 5 minutes after creation is
honoured and removed; an absent session falls through. -/
theorem preview_confirm_spec_witness :
    (("s1" : String) ≠ "" ∧ ∃ p, lookupSession [("s1", ⟨100, "", [sampleContent]⟩)] "s1" = some p ∧
      p.ts ≠ 0 ∧ (400 : Int) - p.ts ≤ 15 * 60 ∧ [sampleContent] = p.items ∧
      removeSession [("s1", ⟨100, "", [sampleContent]⟩)] "s1" =
        removeSession [("s1", ⟨100, "", [sampleContent]⟩)] "s1" ∧
      lookupSession (removeSession [("s1", ⟨100, "", [sampleContent]⟩)] "s1") "s1" = none) ∧
    snsCollectConfirm 400 "s2" [("s1", ⟨100, "", [sampleContent]⟩)] =
      (.freshCollect, [("s1", ⟨100, "", [sampleContent]⟩)]) := by
  constructor
  · exact (preview_confirm_spec 400 "s1" [("s1", ⟨100, "", [sampleContent]⟩)]).1
      [sampleContent] (removeSession [("s1", ⟨100, "", [sampleContent]⟩)] "s1") rfl
  · exact (preview_confirm_spec 400 "s2" [("s1", ⟨100, "", [sampleContent]⟩)]).2.2 rfl

/-- Counterexample to C8 as stated: a confirm attempted 20 minutes after
creation falls through to a fresh collection, but the expired session is
NOT removed from the on-disk state — it is still there afterwards. -/
theorem confirm_expired_counterexample :
    snsCollectConfirm 1300 "s1" [("s1", ⟨100, "", [sampleContent]⟩)] =
      (.freshCollect, [("s1", ⟨100, "", [sampleContent]⟩)]) ∧
    lookupSession (snsCollectConfirm 1300 "s1" [("s1", ⟨100, "", [sampleContent]⟩)]).2 "s1" =
      some ⟨100, "", [sampleContent]⟩ ∧
    ¬((1300 : Int) - 100 ≤ 15 * 60) := by
  refine ⟨rfl, rfl, by norm_num⟩

/-- A duplicate hit makes `processItem` increment `duplicate` and touch
nothing else. -/
theorem processItem_dup (pv : Bool) (pf : String) (now : Int) (eff : ItemEffect)
    (p : CollectorState × CollectResult) (c : SNSContent)
    (h : checkDuplicateCached p.1.cache c = true) :
    processItem pv pf now eff p c = (p.1, { p.2 with duplicate := p.2.duplicate + 1 }) := by
  simp [processItem, h]

/-- `set.add` never removes keys. -/
theorem addKey_mono (cache : List String) (k k2 : String) (h : k ∈ cache) :
    k ∈ addKey cache k2 := by
  unfold addKey
  split_ifs
  · exact h
  · exact List.mem_append_left _ h

/-- One commit-loop step never removes cache keys. -/
theorem processItem_cache_mono (pv : Bool) (pf : String) (now : Int) (eff : ItemEffect)
    (p : CollectorState × CollectResult) (c : SNSContent) (k : String) (h : k ∈ p.1.cache) :
    k ∈ (processItem pv pf now eff p c).1.cache := by
  by_cases h1 : checkDuplicateCached p.1.cache c
  · simpa [processItem, h1] using h
  · by_cases h2 : pv
    · simpa [processItem, h1, h2] using h
    · by_cases h3 : eff.writeOk
      · simp only [processItem, h1, h2, h3, Bool.false_eq_true, if_false, if_true]
        exact addKey_mono _ _ _ h
      · simpa [processItem, h1, h2, h3] using h

/-- The commit loop never removes cache keys. -/
theorem commitLoop_cache_mono (pv : Bool) (pf : String) (now : Int) (effs : Nat → ItemEffect)
    (L : List SNSContent) :
    ∀ (i : Nat) (p : CollectorState × CollectResult) (k : String), k ∈ p.1.cache →
      k ∈ (commitLoop pv pf now effs i L p).1.cache := by
  induction L with
  | nil => intro i p k h; exact h
  | cons c rest ih =>
      intro i p k h
      exact ih (i + 1) _ k (processItem_cache_mono pv pf now (effs i) p c k h)

/-- C3 (amended): for every provider+id pair with a NON-EMPTY id present in
the dedup cache at the start of the commit loop, the loop's handling of an
item carrying that pair increments `duplicate` by exactly one and changes
nothing else — no `written` increment, no store write, no cache, buffer or
ring-buffer mutation.  (The non-empty-id hypothesis is necessary:
`_check_duplicate_cached` returns `False` for an empty `feed_id`, see the
counterexample.) -/
theorem dedup_cached_skip (pv : Bool) (pf : String) (now : Int) (effs : Nat → ItemEffect)
    (c : SNSContent) (hid : c.feed_id ≠ "") :
    ∀ (L₁ L₂ : List SNSContent) (i : Nat) (p : CollectorState × CollectResult),
      cacheKey c.platform c.feed_id ∈ p.1.cache →
      commitLoop pv pf now effs i (L₁ ++ c :: L₂) p =
        commitLoop pv pf now effs (i + L₁.length + 1) L₂
          ((commitLoop pv pf now effs i L₁ p).1,
            { (commitLoop pv pf now effs i L₁ p).2 with
                duplicate := (commitLoop pv pf now effs i L₁ p).2.duplicate + 1 }) := by
  intro L₁
  induction L₁ with
  | nil =>
      intro L₂ i p hmem
      have hdup : checkDuplicateCached p.1.cache c = true := by
        unfold checkDuplicateCached
        rw [if_neg hid]
        exact List.elem_eq_true_of_mem hmem
      simp only [List.nil_append, commitLoop, List.length_nil, Nat.add_zero]
      rw [processItem_dup pv pf now (effs i) p c hdup]
  | cons a L₁ ih =>
      intro L₂ i p hmem
      have hmem2 : cacheKey c.platform c.feed_id ∈
          (processItem pv pf now (effs i) p a).1.cache :=
        processItem_cache_mono pv pf now (effs i) p a _ hmem
      show commitLoop pv pf now effs (i + 1) (L₁ ++ c :: L₂)
          (processItem pv pf now (effs i) p a) = _
      rw [ih L₂ (i + 1) (processItem pv pf now (effs i) p a) hmem2]
      have hidx : i + (a :: L₁).length + 1 = i + 1 + L₁.length + 1 := by
        simp only [List.length_cons]
        omega
      rw [hidx]
      rfl

/-- Witness for C3 at a concrete input: a cached non-empty pair is counted
as a duplicate and commits nothing. -/
theorem dedup_cached_skip_witness :
    commitLoop false "xiaohongshu" 0 (fun _ => {}) 0 [sampleContent]
        ({ cache := ["xiaohongshu:f1"] }, {}) =
      commitLoop false "xiaohongshu" 0 (fun _ => {}) 1 []
        ((commitLoop false "xiaohongshu" 0 (fun _ => {}) 0 [] ({ cache := ["xiaohongshu:f1"] }, {})).1,
          { (commitLoop false "xiaohongshu" 0 (fun _ => {}) 0 [] ({ cache := ["xiaohongshu:f1"] }, {})).2 with
              duplicate := (commitLoop false "xiaohongshu" 0 (fun _ => {}) 0 []
                ({ cache := ["xiaohongshu:f1"] }, {})).2.duplicate + 1 }) := by
  have h := dedup_cached_skip false "xiaohongshu" 0 (fun _ => {}) sampleContent
    (by decide) [] [] 0 ({ cache := ["xiaohongshu:f1"] }, {}) (by decide)
  simpa using h

/-- Counterexample to C3 as stated: the pair `xiaohongshu:` (empty id) is in
the cache at loop start, yet an item carrying it is written, not counted as
a duplicate, because `_check_duplicate_cached` short-circuits on an empty
`feed_id`.  Exercised through `collect()` in provided-contents mode. -/
theorem dedup_empty_id_counterexample :
    cacheKey "xiaohongshu" "" ∈
      ({ cacheLoaded := true, cache := ["xiaohongshu:"] } : CollectorState).cache ∧
    (collect true false false "xiaohongshu" (some [some emptyIdContent]) 1 oraDefault none
        { cacheLoaded := true, cache := ["xiaohongshu:"] }).1.written = 1 ∧
    (collect true false false "xiaohongshu" (some [some emptyIdContent]) 1 oraDefault none
        { cacheLoaded := true, cache := ["xiaohongshu:"] }).1.duplicate = 0 ∧
    (collect true false false "xiaohongshu" (some [some emptyIdContent]) 1 oraDefault none
        { cacheLoaded := true, cache := ["xiaohongshu:"] }).2.store.length = 1 := by
  refine ⟨by decide, rfl, rfl, rfl⟩

/-- In preview mode the commit loop leaves the state untouched and only
accumulates counts and preview captures, with duplicates judged against the
(unchanging) cache. -/
theorem commitLoop_preview (pf : String) (now : Int) (effs : Nat → ItemEffect)
    (st : CollectorState) :
    ∀ (L : List SNSContent) (i : Nat) (res : CollectResult),
      commitLoop true pf now effs i L (st, res) =
        (st,
          { res with
            duplicate := res.duplicate +
              (L.filter (fun c => checkDuplicateCached st.cache c)).length
            written := res.written +
              (L.filter (fun c => !checkDuplicateCached st.cache c)).length
            previewItems := res.previewItems ++
              L.filter (fun c => !checkDuplicateCached st.cache c)
            previewContents := res.previewContents ++
              (L.filter (fun c => !checkDuplicateCached st.cache c)).map mkPreviewEntry }) := by
  intro L
  induction L with
  | nil => intro i res; simp [commitLoop]
  | cons c L ih =>
      intro i res
      by_cases hdup : checkDuplicateCached st.cache c
      · have h1 : commitLoop true pf now effs i (c :: L) (st, res)
            = commitLoop true pf now effs (i + 1) L (st, { res with duplicate := res.duplicate + 1 }) := by
          show commitLoop true pf now effs (i + 1) L (processItem true pf now (effs i) (st, res) c) = _
          rw [processItem_dup _ _ _ _ _ _ hdup]
        rw [h1, ih (i + 1)]
        rcases res with ⟨su, fe, wr, fi, du, er, pc, pi⟩
        simp [List.filter_cons, hdup]
        omega
      · have h1 : commitLoop true pf now effs i (c :: L) (st, res)
            = commitLoop true pf now effs (i + 1) L (st,
                { res with
                  previewContents := res.previewContents ++ [mkPreviewEntry c]
                  previewItems := res.previewItems ++ [c]
                  written := res.written + 1 }) := by
          show commitLoop true pf now effs (i + 1) L (processItem true pf now (effs i) (st, res) c) = _
          simp [processItem, hdup]
        rw [h1, ih (i + 1)]
        rcases res with ⟨su, fe, wr, fi, du, er, pc, pi⟩
        simp [List.filter_cons, hdup]
        omega

/-- Hydration touches only the cache and its latch. -/
theorem hydrate_frame (ora : CollectOracle) (s : CollectorState) :
    (hydrate ora s).store = s.store ∧ (hydrate ora s).buffer = s.buffer ∧
    (hydrate ora s).recent = s.recent ∧ (hydrate ora s).isRunning = s.isRunning ∧
    (hydrate ora s).cache = hydratedCache ora s := by
  unfold hydrate hydratedCache
  split_ifs <;> simp

/-- State frame of a preview-mode `collectRun`: store, buffer and ring
buffer are untouched on every path, and the cache is either untouched (the
pre-hydration exception path) or exactly the hydrated cache. -/
theorem collectRun_preview_state (ac : Bool) (pf : String) (ora : CollectOracle)
    (exc : Option String) (fetched0 : Nat) (items? : Option (List SNSContent))
    (s0 : CollectorState) :
    (collectRun true ac pf ora exc fetched0 items? s0).2.store = s0.store ∧
    (collectRun true ac pf ora exc fetched0 items? s0).2.buffer = s0.buffer ∧
    (collectRun true ac pf ora exc fetched0 items? s0).2.recent = s0.recent ∧
    ((collectRun true ac pf ora exc fetched0 items? s0).2.cache = s0.cache ∨
      (collectRun true ac pf ora exc fetched0 items? s0).2.cache = hydratedCache ora s0) := by
  cases exc with
  | some m => exact ⟨rfl, rfl, rfl, Or.inl rfl⟩
  | none =>
      cases items? with
      | some items =>
          simp only [collectRun, finishRun,
            commitLoop_preview pf ora.now ora.effs (hydrate ora { s0 with isRunning := true })]
          refine ⟨?_, ?_, ?_, Or.inr ?_⟩ <;>
            simp [hydrate, hydratedCache] <;> split_ifs <;> rfl
      | none =>
          by_cases h1 : ora.fetched.isEmpty
          · simp only [collectRun, h1, if_true]
            refine ⟨?_, ?_, ?_, Or.inr ?_⟩ <;>
              simp [hydrate, hydratedCache] <;> split_ifs <;> rfl
          · by_cases h2 : ora.finalItems.isEmpty
            · simp only [collectRun, h1, h2, Bool.false_eq_true, if_false, if_true]
              refine ⟨?_, ?_, ?_, Or.inr ?_⟩ <;>
                simp [hydrate, hydratedCache] <;> split_ifs <;> rfl
            · simp only [collectRun, h1, h2, Bool.false_eq_true, if_false, finishRun,
                commitLoop_preview pf ora.now ora.effs (hydrate ora { s0 with isRunning := true })]
              refine ⟨?_, ?_, ?_, Or.inr ?_⟩ <;>
                simp [hydrate, hydratedCache] <;> split_ifs <;> rfl

/-- Result of a preview-mode `collectRun` on the commit path: counts and
captures are exactly the non-duplicates of the item list, judged against
the hydrated cache. -/
theorem collectRun_preview_result (ac : Bool) (pf : String) (ora : CollectOracle)
    (fetched0 : Nat) (items : List SNSContent) (s0 : CollectorState) :
    (collectRun true ac pf ora none fetched0 (some items) s0).1.written =
      (items.filter (fun c => !checkDuplicateCached (hydratedCache ora s0) c)).length ∧
    (collectRun true ac pf ora none fetched0 (some items) s0).1.previewItems =
      items.filter (fun c => !checkDuplicateCached (hydratedCache ora s0) c) ∧
    (collectRun true ac pf ora none fetched0 (some items) s0).1.previewContents =
      (items.filter (fun c => !checkDuplicateCached (hydratedCache ora s0) c)).map mkPreviewEntry ∧
    (collectRun true ac pf ora none fetched0 (some items) s0).1.duplicate =
      (items.filter (fun c => checkDuplicateCached (hydratedCache ora s0) c)).length := by
  have hc : (hydrate ora { s0 with isRunning := true }).cache = hydratedCache ora s0 := by
    simp [hydrate, hydratedCache]
    split_ifs <;> rfl
  simp only [collectRun, finishRun,
    commitLoop_preview pf ora.now ora.effs (hydrate ora { s0 with isRunning := true }), hc]
  exact ⟨by simp, by simp, by simp, by simp⟩

/-- Result of a preview-mode `collectRun` on the fetch-mode commit path. -/
theorem collectRun_preview_result_fetch (ac : Bool) (pf : String) (ora : CollectOracle)
    (s0 : CollectorState) (h1 : ora.fetched.isEmpty = false) (h2 : ora.finalItems.isEmpty = false) :
    (collectRun true ac pf ora none 0 none s0).1.written =
      (ora.finalItems.filter (fun c => !checkDuplicateCached (hydratedCache ora s0) c)).length ∧
    (collectRun true ac pf ora none 0 none s0).1.previewItems =
      ora.finalItems.filter (fun c => !checkDuplicateCached (hydratedCache ora s0) c) ∧
    (collectRun true ac pf ora none 0 none s0).1.previewContents =
      (ora.finalItems.filter (fun c => !checkDuplicateCached (hydratedCache ora s0) c)).map mkPreviewEntry ∧
    (collectRun true ac pf ora none 0 none s0).1.duplicate =
      (ora.finalItems.filter (fun c => checkDuplicateCached (hydratedCache ora s0) c)).length := by
  have hc : (hydrate ora { s0 with isRunning := true }).cache = hydratedCache ora s0 := by
    simp [hydrate, hydratedCache]
    split_ifs <;> rfl
  simp only [collectRun, h1, h2, Bool.false_eq_true, if_false, finishRun,
    commitLoop_preview pf ora.now ora.effs (hydrate ora { s0 with isRunning := true }), hc]
  exact ⟨by simp, by simp, by simp, by simp⟩

/-- C9 (amended): a `preview_only=True` run issues no store create, does
not run retention cleanup (for every cleanup oracle and every auto-cleanup
configuration), appends nothing to the recent-activity ring buffer, and
does not touch the failed-write buffer; the dedup cache is not mutated
either, EXCEPT for the one-time lazy hydration shared by all runs (see the
counterexample).  On the commit path, each accepted non-duplicate item
increments `written` and is captured into both `preview_contents` and
`preview_items`. -/
theorem preview_frame (pe ac : Bool) (pf : String) (provided : Option (List (Option SNSContent)))
    (cnt : Int) (ora : CollectOracle) (exc : Option String) (s : CollectorState) :
    ((collect pe true ac pf provided cnt ora exc s).2.store = s.store ∧
      (collect pe true ac pf provided cnt ora exc s).2.buffer = s.buffer ∧
      (collect pe true ac pf provided cnt ora exc s).2.recent = s.recent) ∧
    (s.cacheLoaded = true → (collect pe true ac pf provided cnt ora exc s).2.cache = s.cache) ∧
    (∀ L, provided = some L → (L.filterMap id).isEmpty = false → pe = true →
      s.isRunning = false → exc = none →
      (collect pe true ac pf provided cnt ora exc s).1.written =
        ((L.filterMap id).filter (fun c => !checkDuplicateCached (hydratedCache ora s) c)).length ∧
      (collect pe true ac pf provided cnt ora exc s).1.previewItems =
        (L.filterMap id).filter (fun c => !checkDuplicateCached (hydratedCache ora s) c) ∧
      (collect pe true ac pf provided cnt ora exc s).1.previewContents =
        ((L.filterMap id).filter (fun c => !checkDuplicateCached (hydratedCache ora s) c)).map
          mkPreviewEntry ∧
      (collect pe true ac pf provided cnt ora exc s).1.duplicate =
        ((L.filterMap id).filter (fun c => checkDuplicateCached (hydratedCache ora s) c)).length) ∧
    (provided = none → max cnt 0 ≠ 0 → pe = true → s.isRunning = false → exc = none →
      ora.fetched.isEmpty = false → ora.finalItems.isEmpty = false →
      (collect pe true ac pf provided cnt ora exc s).1.written =
        (ora.finalItems.filter (fun c => !checkDuplicateCached (hydratedCache ora s) c)).length ∧
      (collect pe true ac pf provided cnt ora exc s).1.previewItems =
        ora.finalItems.filter (fun c => !checkDuplicateCached (hydratedCache ora s) c)) := by
  have hcl : s.cacheLoaded = true → hydratedCache ora s = s.cache := by
    intro h; simp [hydratedCache, h]
  refine ⟨?_, ?_, ?_, ?_⟩
  · cases provided with
    | some L =>
        by_cases h1 : (L.filterMap id).isEmpty
        · simp [collect, h1]
        · by_cases h2 : pe
          · by_cases h3 : s.isRunning
            · simp [collect, collectChecks, h1, h2, h3]
            · have hs := collectRun_preview_state ac pf ora exc (L.filterMap id).length
                (some (L.filterMap id)) s
              simp only [collect, collectChecks, h1, h2, h3, Bool.not_true, Bool.false_eq_true,
                if_false, if_true]
              exact ⟨hs.1, hs.2.1, hs.2.2.1⟩
          · simp [collect, collectChecks, h1, h2]
    | none =>
        by_cases h0 : max cnt 0 = 0
        · simp [collect, h0]
        · by_cases h2 : pe
          · by_cases h3 : s.isRunning
            · simp [collect, collectChecks, h0, h2, h3]
            · have hs := collectRun_preview_state ac pf ora exc 0 none s
              simp only [collect, collectChecks, h0, h2, h3, Bool.not_true, Bool.false_eq_true,
                if_false, if_true]
              exact ⟨hs.1, hs.2.1, hs.2.2.1⟩
          · simp [collect, collectChecks, h0, h2]
  · intro hload
    cases provided with
    | some L =>
        by_cases h1 : (L.filterMap id).isEmpty
        · simp [collect, h1]
        · by_cases h2 : pe
          · by_cases h3 : s.isRunning
            · simp [collect, collectChecks, h1, h2, h3]
            · have hs := collectRun_preview_state ac pf ora exc (L.filterMap id).length
                (some (L.filterMap id)) s
              simp only [collect, collectChecks, h1, h2, h3, Bool.not_true, Bool.false_eq_true,
                if_false, if_true]
              rcases hs.2.2.2 with h | h
              · exact h
              · rw [h]; exact hcl hload
          · simp [collect, collectChecks, h1, h2]
    | none =>
        by_cases h0 : max cnt 0 = 0
        · simp [collect, h0]
        · by_cases h2 : pe
          · by_cases h3 : s.isRunning
            · simp [collect, collectChecks, h0, h2, h3]
            · have hs := collectRun_preview_state ac pf ora exc 0 none s
              simp only [collect, collectChecks, h0, h2, h3, Bool.not_true, Bool.false_eq_true,
                if_false, if_true]
              rcases hs.2.2.2 with h | h
              · exact h
              · rw [h]; exact hcl hload
          · simp [collect, collectChecks, h0, h2]
  · intro L hL h1 h2 h3 h4
    subst hL; subst h2; subst h4
    have hr := collectRun_preview_result ac pf ora (L.filterMap id).length (L.filterMap id) s
    simp only [collect, collectChecks, h1, h3, Bool.not_true, Bool.false_eq_true, if_false,
      if_true]
    exact hr
  · intro hL h0 h2 h3 h4 h5 h6
    subst hL; subst h2; subst h4
    have hr := collectRun_preview_result_fetch ac pf ora s h5 h6
    simp only [collect, collectChecks, h0, h3, Bool.not_true, Bool.false_eq_true, if_false,
      if_true]
    exact ⟨hr.1, hr.2.1⟩

/-- Witness for C9 at a concrete preview run on an already-hydrated state:
the cache is untouched and the single fresh item is counted and captured. -/
theorem preview_frame_witness :
    (collect true true false "xiaohongshu" (some [some sampleContent]) 1 oraDefault none
        ({ cacheLoaded := true } : CollectorState)).2.cache =
      ({ cacheLoaded := true } : CollectorState).cache ∧
    (collect true true false "xiaohongshu" (some [some sampleContent]) 1 oraDefault none
        ({ cacheLoaded := true } : CollectorState)).1.written =
      ((([some sampleContent] : List (Option SNSContent)).filterMap id).filter
        (fun c => !checkDuplicateCached
          (hydratedCache oraDefault ({ cacheLoaded := true } : CollectorState)) c)).length := by
  refine ⟨?_, ?_⟩
  · exact (preview_frame true false "xiaohongshu" (some [some sampleContent]) 1 oraDefault none
      { cacheLoaded := true }).2.1 rfl
  · exact ((preview_frame true false "xiaohongshu" (some [some sampleContent]) 1 oraDefault none
      { cacheLoaded := true }).2.2.1 [some sampleContent] rfl rfl rfl rfl rfl).1

/-- Counterexample to C9 as stated: on the first run of a process the lazy
hydration inside `collect()` mutates the dedup cache even in preview mode
(here it gains the key `k1` extracted from the store). -/
theorem preview_hydration_counterexample :
    (collect true true false "xiaohongshu" (some [some sampleContent]) 1
        ({ hydrationKeys := ["k1"] } : CollectOracle) none ({} : CollectorState)).2.cache
      = ["k1"] ∧
    ({} : CollectorState).cache = [] ∧ (["k1"] : List String) ≠ [] := by
  exact ⟨rfl, rfl, by decide⟩

/-- A run that enters the guarded body always leaves with the flag
cleared: the `finally` clause runs on the success, partial-failure and
exception paths alike. -/
theorem collectRun_clears_flag (pv ac : Bool) (pf : String) (ora : CollectOracle)
    (exc : Option String) (fetched0 : Nat) (items? : Option (List SNSContent))
    (s0 : CollectorState) :
    (collectRun pv ac pf ora exc fetched0 items? s0).2.isRunning = false := by
  cases exc with
  | some m => rfl
  | none =>
      cases items? with
      | some items => rfl
      | none =>
          by_cases h1 : ora.fetched.isEmpty
          · simp [collectRun, h1]
          · by_cases h2 : ora.finalItems.isEmpty
            · simp [collectRun, h1, h2]
            · simp [collectRun, h1, h2, finishRun]

/-- C1 (amended): a call that passes the argument and platform checks while
another run holds the flag returns immediately with `success=False`, the
recognisable busy error, the state untouched — and `fetched` equal to the
number of valid provided items (`0` in fetch mode), not always `0`.  Calls
that fail an earlier check return before the busy check (see the
counterexample).  Whenever a call starts with the flag clear, the flag is
clear again when it returns, on every exit path. -/
theorem collect_busy_guard (pe pv ac : Bool) (pf : String)
    (provided : Option (List (Option SNSContent))) (cnt : Int) (ora : CollectOracle)
    (exc : Option String) (s : CollectorState) :
    (s.isRunning = true → pe = true →
      (match provided with
       | some L => (L.filterMap id).isEmpty = false
       | none => max cnt 0 ≠ 0) →
      collect pe pv ac pf provided cnt ora exc s =
        ({ fetched := (match provided with | some L => (L.filterMap id).length | none => 0),
           errors := ["采集任务正在运行中"] }, s)) ∧
    (s.isRunning = false →
      (collect pe pv ac pf provided cnt ora exc s).2.isRunning = false) := by
  constructor
  · intro h1 h2 h3
    cases provided with
    | some L => simp [collect, collectChecks, h3, h2, h1]
    | none => simp [collect, collectChecks, h3, h2, h1]
  · intro h1
    cases provided with
    | some L =>
        by_cases hemp : (L.filterMap id).isEmpty
        · simp [collect, hemp, h1]
        · by_cases hpe : pe
          · simp only [collect, collectChecks, hemp, hpe, h1, Bool.not_true, Bool.false_eq_true,
              if_false, if_true]
            exact collectRun_clears_flag pv ac pf ora exc _ _ s
          · simp [collect, collectChecks, hemp, hpe, h1]
    | none =>
        by_cases h0 : max cnt 0 = 0
        · simp [collect, h0, h1]
        · by_cases hpe : pe
          · simp only [collect, collectChecks, h0, hpe, h1, Bool.not_true, Bool.false_eq_true,
              if_false, if_true]
            exact collectRun_clears_flag pv ac pf ora exc _ _ s
          · simp [collect, collectChecks, h0, hpe, h1]

/-- Witness for C1: a busy fetch-mode call returns the bare busy result, and
an idle run clears the flag. -/
theorem collect_busy_guard_witness :
    collect true false false "xiaohongshu" none 10 oraDefault none
        ({ isRunning := true } : CollectorState) =
      ({ fetched := 0, errors := ["采集任务正在运行中"] }, { isRunning := true }) ∧
    (collect true false false "xiaohongshu" none 10 oraDefault none
        ({} : CollectorState)).2.isRunning = false := by
  constructor
  · exact (collect_busy_guard true false false "xiaohongshu" none 10 oraDefault none
      { isRunning := true }).1 rfl rfl (by decide)
  · exact (collect_busy_guard true false false "xiaohongshu" none 10 oraDefault none
      {}).2 rfl

/-- Counterexample to C1 as stated: while another run holds the flag, a
provided-contents call reports `fetched=1` (not `0`) alongside the busy
error, and a call whose provided list holds no valid item returns
`success=True` with no busy error at all — both contradict "every concurrent
call returns success=false, fetched=0, with a busy error appended". -/
theorem collect_busy_counterexample :
    ({ isRunning := true } : CollectorState).isRunning = true ∧
    (collect true false false "xiaohongshu" (some [some sampleContent]) 1 oraDefault none
        { isRunning := true }).1.fetched = 1 ∧
    (collect true false false "xiaohongshu" (some [some sampleContent]) 1 oraDefault none
        { isRunning := true }).1.errors = ["采集任务正在运行中"] ∧
    (collect true false false "xiaohongshu" (some []) 1 oraDefault none
        { isRunning := true }).1.success = true ∧
    (collect true false false "xiaohongshu" (some []) 1 oraDefault none
        { isRunning := true }).1.errors = [] := by
  exact ⟨rfl, rfl, rfl, rfl, rfl⟩

/-- The body update touches only `content`, and only with the string form
of a truthy extracted value. -/
theorem applyContentUpdate_frame (d : Json) (c : SNSContent) :
    (applyContentUpdate d c).feed_id = c.feed_id ∧
    (applyContentUpdate d c).platform = c.platform ∧
    (applyContentUpdate d c).title = c.title ∧
    (applyContentUpdate d c).author = c.author ∧
    (applyContentUpdate d c).like_count = c.like_count ∧
    (applyContentUpdate d c).comment_count = c.comment_count ∧
    (applyContentUpdate d c).url = c.url ∧
    (applyContentUpdate d c).image_urls = c.image_urls ∧
    ((applyContentUpdate d c).content = c.content ∨
      ∃ v, pyTruthy v = true ∧ (applyContentUpdate d c).content = pyStr v) := by
  unfold applyContentUpdate
  cases h : extractField d fmContent with
  | none => exact ⟨rfl, rfl, rfl, rfl, rfl, rfl, rfl, rfl, Or.inl rfl⟩
  | some v =>
      dsimp only
      by_cases ht : pyTruthy v
      · rw [if_pos ht]
        exact ⟨rfl, rfl, rfl, rfl, rfl, rfl, rfl, rfl, Or.inr ⟨v, ht, rfl⟩⟩
      · rw [if_neg ht]
        exact ⟨rfl, rfl, rfl, rfl, rfl, rfl, rfl, rfl, Or.inl rfl⟩

/-- The image update touches only `image_urls`. -/
theorem applyImagesUpdate_frame (d : Json) (c : SNSContent) :
    (applyImagesUpdate d c).feed_id = c.feed_id ∧
    (applyImagesUpdate d c).platform = c.platform ∧
    (applyImagesUpdate d c).title = c.title ∧
    (applyImagesUpdate d c).author = c.author ∧
    (applyImagesUpdate d c).like_count = c.like_count ∧
    (applyImagesUpdate d c).comment_count = c.comment_count ∧
    (applyImagesUpdate d c).url = c.url ∧
    (applyImagesUpdate d c).content = c.content := by
  unfold applyImagesUpdate
  cases h : extractField d fmImages with
  | none => exact ⟨rfl, rfl, rfl, rfl, rfl, rfl, rfl, rfl⟩
  | some v =>
      dsimp only
      by_cases ht : pyTruthy v
      · rw [if_pos ht]
        exact ⟨rfl, rfl, rfl, rfl, rfl, rfl, rfl, rfl⟩
      · rw [if_neg ht]
        exact ⟨rfl, rfl, rfl, rfl, rfl, rfl, rfl, rfl⟩

/-- Field frame of `parse_detail_result`: every field except `content`,
`image_urls` and `extra` is preserved, and `content` is replaced only by the
string form of a truthy extracted value. -/
theorem parseDetailResult_frame (p : Option Json) (c : SNSContent) :
    (parseDetailResult p c).feed_id = c.feed_id ∧
    (parseDetailResult p c).platform = c.platform ∧
    (parseDetailResult p c).title = c.title ∧
    (parseDetailResult p c).author = c.author ∧
    (parseDetailResult p c).like_count = c.like_count ∧
    (parseDetailResult p c).comment_count = c.comment_count ∧
    (parseDetailResult p c).url = c.url ∧
    ((parseDetailResult p c).content = c.content ∨
      ∃ v, pyTruthy v = true ∧ (parseDetailResult p c).content = pyStr v) := by
  have hrefl : (parseDetailResult p c) = c →
      (parseDetailResult p c).feed_id = c.feed_id ∧
      (parseDetailResult p c).platform = c.platform ∧
      (parseDetailResult p c).title = c.title ∧
      (parseDetailResult p c).author = c.author ∧
      (parseDetailResult p c).like_count = c.like_count ∧
      (parseDetailResult p c).comment_count = c.comment_count ∧
      (parseDetailResult p c).url = c.url ∧
      ((parseDetailResult p c).content = c.content ∨
        ∃ v, pyTruthy v = true ∧ (parseDetailResult p c).content = pyStr v) := by
    intro h; rw [h]; exact ⟨rfl, rfl, rfl, rfl, rfl, rfl, rfl, Or.inl rfl⟩
  cases p with
  | none => exact hrefl rfl
  | some data =>
      cases data with
      | obj kvs =>
          have hcu := applyContentUpdate_frame (detailOf kvs) c
          have hiu := applyImagesUpdate_frame (detailOf kvs) (applyContentUpdate (detailOf kvs) c)
          by_cases hd : pyTruthy (detailOf kvs)
          · cases hdk : detailOf kvs with
            | obj dk =>
                rw [hdk] at hcu hiu hd
                have hres : parseDetailResult (some (.obj kvs)) c =
                    { applyImagesUpdate (Json.obj dk) (applyContentUpdate (Json.obj dk) c) with
                        extra := dictUpdate
                          (applyImagesUpdate (Json.obj dk)
                            (applyContentUpdate (Json.obj dk) c)).extra dk } := by
                  simp only [parseDetailResult]
                  rw [hdk, if_pos hd]
                rw [hres]
                have hcont := hcu.2.2.2.2.2.2.2.2
                have hiu8 := hiu.2.2.2.2.2.2.2
                refine ⟨hiu.1.trans hcu.1, (hiu.2.1).trans hcu.2.1,
                  (hiu.2.2.1).trans hcu.2.2.1, (hiu.2.2.2.1).trans hcu.2.2.2.1,
                  (hiu.2.2.2.2.1).trans hcu.2.2.2.2.1,
                  (hiu.2.2.2.2.2.1).trans hcu.2.2.2.2.2.1,
                  (hiu.2.2.2.2.2.2.1).trans hcu.2.2.2.2.2.2.1, ?_⟩
                rcases hcont with hsame | ⟨v, hv, he⟩
                · exact Or.inl (hiu8.trans hsame)
                · exact Or.inr ⟨v, hv, hiu8.trans he⟩
            | null => exact hrefl (by simp [parseDetailResult, hd, hdk])
            | bool b => exact hrefl (by simp [parseDetailResult, hd, hdk])
            | num n => exact hrefl (by simp [parseDetailResult, hd, hdk])
            | str s => exact hrefl (by simp [parseDetailResult, hd, hdk])
            | arr xs => exact hrefl (by simp [parseDetailResult, hd, hdk])
          · exact hrefl (by simp [parseDetailResult, hd])
      | null => exact hrefl rfl
      | bool b => exact hrefl rfl
      | num n => exact hrefl rfl
      | str s => exact hrefl rfl
      | arr xs => exact hrefl rfl

/-- C5 (amended): Detail Enrichment returns a list of the same length and
order; per item, every field except `content` (the body), `image_urls` and
`extra` is unchanged; the body is replaced only by the string form of a
truthy newly parsed value; and on a missing tool, a failed fetch, or an
undecodable response the item is returned entirely unchanged — never
dropped.  (`extra` is also merged with the parsed detail, contrary to the
original claim; see the counterexample.) -/
theorem fetch_details_frame (te : Bool) (results : Nat → Option (Option Json))
    (contents : List SNSContent) :
    (fetchDetails te results contents).length = contents.length ∧
    (∀ i c, contents.get? i = some c →
      ∃ d, (fetchDetails te results contents).get? i = some d ∧
        d.feed_id = c.feed_id ∧ d.platform = c.platform ∧ d.title = c.title ∧
        d.author = c.author ∧ d.like_count = c.like_count ∧
        d.comment_count = c.comment_count ∧ d.url = c.url ∧
        (d.content = c.content ∨ ∃ v, pyTruthy v = true ∧ d.content = pyStr v) ∧
        (te = false → d = c) ∧ (results i = none → d = c) ∧
        (results i = some none → d = c)) := by
  by_cases hte : te
  · have hlen : (fetchDetails te results contents).length = contents.length := by
      simp [fetchDetails, hte]
    refine ⟨hlen, ?_⟩
    intro i c hc
    have hc2 : contents[i]? = some c := by
      rw [← List.get?_eq_getElem?]; exact hc
    have hget : (fetchDetails te results contents).get? i =
        some (match results i with
              | none => c
              | some payload => parseDetailResult payload c) := by
      rw [List.get?_eq_getElem?]
      simp [fetchDetails, hte, List.getElem?_map, List.getElem?_enum, hc2]
    cases hres : results i with
    | none =>
        rw [hres] at hget
        exact ⟨c, hget, rfl, rfl, rfl, rfl, rfl, rfl, rfl, Or.inl rfl,
          fun _ => rfl, fun _ => rfl, fun _ => rfl⟩
    | some payload =>
        rw [hres] at hget
        have hf := parseDetailResult_frame payload c
        refine ⟨parseDetailResult payload c, hget, hf.1, hf.2.1, hf.2.2.1, hf.2.2.2.1,
          hf.2.2.2.2.1, hf.2.2.2.2.2.1, hf.2.2.2.2.2.2.1, hf.2.2.2.2.2.2.2, ?_, ?_, ?_⟩
        · intro h
          rw [h] at hte
          exact absurd hte (by decide)
        · intro h
          exact absurd h (by simp)
        · intro h
          injection h with h3
          rw [h3]
          rfl
  · have hid : fetchDetails te results contents = contents := by
      simp [fetchDetails, hte]
    rw [hid]
    refine ⟨rfl, ?_⟩
    intro i c hc
    exact ⟨c, hc, rfl, rfl, rfl, rfl, rfl, rfl, rfl, Or.inl rfl,
      fun _ => rfl, fun _ => rfl, fun _ => rfl⟩

/-- Witness for C5 at a concrete input: a failed detail fetch returns the
item unchanged at its position. -/
theorem fetch_details_frame_witness :
    ∃ d, (fetchDetails true (fun _ => none) [sampleContent]).get? 0 = some d ∧
      d = sampleContent := by
  obtain ⟨d, hget, _, _, _, _, _, _, _, _, _, hnone, _⟩ :=
    (fetch_details_frame true (fun _ => none) [sampleContent]).2 0 sampleContent rfl
  exact ⟨d, hget, hnone rfl⟩

/-- Counterexample to C5 as stated: enrichment does not leave "all other
fields" unchanged — the `extra` mapping is merged with the parsed detail
(`content.extra.update(detail)`, plugin.py:363); and a truthy `images` value
whose extracted URL list is empty replaces `image_urls` with the empty
list. -/
theorem detail_mutation_counterexample :
    fetchDetails true (fun _ => some (some (.obj [("data", Json.obj [("foo", Json.num 1)])])))
        [sampleContent] =
      [{ sampleContent with extra := [("foo", Json.num 1)] }] ∧
    sampleContent.extra = [] ∧
    ([("foo", Json.num 1)] : List (String × Json)) ≠ [] ∧
    (parseDetailResult (some (.obj [("images", Json.num 5)])) sampleImgContent).image_urls = [] ∧
    sampleImgContent.image_urls = [Json.str "old"] := by
  exact ⟨rfl, rfl, fun h => List.noConfusion h, rfl, rfl⟩

end SNS
